import Mathlib

/-!
# Verification of the transcription orchestrator (src/transcription_manager.py)

Shallow embedding, in Lean 4, of the transcription task orchestrator of the
web-cli-wrapper repository. Python floats carrying progress percentages are
modelled by rationals (the claims under study concern only ordering and exact
integer endpoints, which IEEE floats preserve for the scalings involved);
Python dicts passed to the progress callback are modelled by a structure with
optional fields, one per key the source ever inserts; file-system operations
are modelled by explicit directory states, with the operations that the source
assumes to succeed (unlink, move, rmtree) modelled as succeeding.
-/

namespace WebCli

/-! ## Worker stdout capture — `_transcribe_in_process.CustomStdout`

The worker process replaces `sys.stdout` with a `CustomStdout` object whose
`write(text)` method (transcription_manager.py lines 104-110) appends a
`{"type": "debug", "message": text.strip()}` line to the progress log only
when `text.strip()` is non-empty and differs from the stripped text of the
last write that produced a log entry (`self._last_text`, initially `None`).
-/

/-- The whitespace set of Python's `str.strip()`. -/
def pyWs (c : Char) : Bool :=
  c = ' ' || c = '\t' || c = '\n' || c = '\r' || c = '\x0b' || c = '\x0c'

/-- Python `text.strip()`: drop leading and trailing whitespace. -/
def pyStrip (s : String) : String :=
  ⟨((s.data.dropWhile pyWs).reverse.dropWhile pyWs).reverse⟩

/-- The log messages produced by a sequence of `CustomStdout.write` calls,
starting from a given `_last_text` state (`none` at construction): a write is
logged (as its stripped text) only when its stripped text is non-empty and
differs from `_last_text`. -/
def customStdoutWrites : Option String → List String → List String
  | _, [] => []
  | last, t :: ts =>
    if pyStrip t = "" then customStdoutWrites last ts
    else if some (pyStrip t) = last then customStdoutWrites last ts
    else pyStrip t :: customStdoutWrites (some (pyStrip t)) ts

/-! ## Delivery retry loop — `_send_progress` (lines 633-649)

The retry loop: `max_retries = 3`, `retry_delay = 1`; each failed attempt that
is not the last sleeps `retry_delay` seconds and doubles it; after the last
failed attempt it logs and returns; the loop breaks on the first successful
`callback(data)` call.
-/

/-- The retry loop of `_send_progress`, structurally: `attempt` is the current
attempt index, the second argument the number of attempts remaining, `delay`
the current `retry_delay`. Returns (number of `callback` invocations, list of
sleep durations in order, whether some invocation succeeded). `sinkOk i` tells
whether the i-th `callback(data)` call returns normally (true) or raises. -/
def sendAttemptLoop (sinkOk : Nat → Bool) : Nat → Nat → Nat → Nat × List Nat × Bool
  | _, 0, _ => (0, [], false)
  | attempt, rem + 1, delay =>
    if sinkOk attempt then (1, [], true)
    else if rem = 0 then (1, [], false)
    else
      let r := sendAttemptLoop sinkOk (attempt + 1) rem (2 * delay)
      (r.1 + 1, delay :: r.2.1, r.2.2)

/-- The delivery primitive of `_send_progress`: 3 attempts maximum for every
event, initial delay 1 second. -/
def sendRetry (sinkOk : Nat → Bool) : Nat × List Nat × Bool :=
  sendAttemptLoop sinkOk 0 3 1

/-- Number of `callback` invocations made by one `_send_progress` call. -/
def attemptCount (sinkOk : Nat → Bool) : Nat := (sendRetry sinkOk).1

/-! ## Result store — `save_transcription_result` (lines 651-681)

After `json.dump`, the source verifies `result_file.exists()`; if the file
exists it merely logs the size (`result_file.stat().st_size`) and returns; if
it does not exist it raises, and the outer handler re-raises to the caller.
The post-write state of the file system is modelled by whether the file exists
and its size in bytes.
-/

/-- Post-write state of the per-task result file. -/
structure SaveFs where
  existsAfterWrite : Bool
  sizeAfterWrite : Nat
deriving DecidableEq

/-- `save_transcription_result`, from the post-write verification on: returns
`.ok` when the file exists (its size is only logged, never checked), raises
(modelled by `.error`, re-raised to the caller by the outer handler) when the
file was not created. -/
def save_transcription_result (fs : SaveFs) : Except String Unit :=
  if fs.existsAfterWrite then .ok ()
  else .error "result file was not created"

/-! ## URL identifier extraction — `extract_video_id`

`extract_video_id` (transcription.py lines 83-108, duplicated as the method at
transcription_manager.py lines 222-231) runs `re.search` with the pattern
`(?:youtube\.com\/watch\?v=|youtu\.be\/|youtube\.com\/embed\/)([^&\n?#]+)`
and, if that fails, with `youtube\.com\/shorts\/([^&\n?#]+)`, returning the
captured group of the first match, else `None`. The two patterns are literal
alternations followed by a greedy non-empty character class, so `re.search`
is embedded exactly: scan start positions left to right; at each position try
the alternatives in order; an alternative matches when it is a literal prefix
of the remaining input followed by at least one character outside `&\n?#`;
the capture is the maximal run of such characters. Strings are represented as
`List Char`.
-/

/-- The character class `[^&\n?#]` used by both patterns (negated). -/
def stopChar (c : Char) : Bool := c = '&' || c = '\n' || c = '?' || c = '#'

/-- Try one literal alternative at the current position: it matches when it is
a prefix of `s` and at least one non-stop character follows; the capture is
the maximal run of non-stop characters after it (greedy `[^&\n?#]+`). -/
def tryAlt (alt s : List Char) : Option (List Char) :=
  if alt.isPrefixOf s then
    let g := (s.drop alt.length).takeWhile (fun c => !stopChar c)
    if g = [] then none else some g
  else none

/-- Try the alternatives of an alternation, in order, at the current
position. -/
def tryAlts (alts : List (List Char)) (s : List Char) : Option (List Char) :=
  match alts with
  | [] => none
  | a :: rest => (tryAlt a s).orElse fun _ => tryAlts rest s

/-- `re.search` for a pattern `(?:a₁|a₂|…)([^&\n?#]+)`: scan start positions
left to right, returning the first capture. -/
def reSearch (alts : List (List Char)) : List Char → Option (List Char)
  | [] => none
  | c :: rest => (tryAlts alts (c :: rest)).orElse fun _ => reSearch alts rest

/-- The alternatives of the first pattern, in source order. -/
def pat1 : List (List Char) :=
  [("youtube.com/watch?v=").data, ("youtu.be/").data, ("youtube.com/embed/").data]

/-- The (single) alternative of the second pattern. -/
def pat2 : List (List Char) := [("youtube.com/shorts/").data]

/-- `extract_video_id`: first pattern wins; the second is tried only when the
first finds no match anywhere in the URL. -/
def extract_video_id (url : List Char) : Option (List Char) :=
  (reSearch pat1 url).orElse fun _ => reSearch pat2 url

/-! ## Audio acquisition — `download_audio` (lines 377-444)

`download_audio(url, output_path, progress_cb)` is modelled at the level of
the destination directory `output_path.parent`, a list of (file name, size)
pairs. The run of yt-dlp is a black box described by `DlFsRun`: whether
`ydl.extract_info` raises `DownloadError`, whether it returns truthy info,
the video id in that info, and the directory contents it leaves behind. The
source then moves `<id>.mp3` (or, failing that, the first `*.mp3` glob match)
onto `output_path`, verifies existence and non-zero size, and on any failure
unlinks `output_path` and every `*.mp3` and `*.webm` glob match in the
directory before re-raising `RuntimeError(f"Failed to download audio: …")`.
`shutil.move` and `unlink` are modelled as succeeding. -/

/-- Contents of the destination directory: (file name, size in bytes). -/
abbrev Dir := List (String × Nat)

/-- pathlib glob `*.<ext>`: the name ends with the extension and, `*` not
matching a leading dot, does not start with `.`. -/
def globMatch (ext : String) (name : String) : Bool :=
  ext.data.isSuffixOf name.data && !(name.startsWith ".")

/-- Size of a file in the directory, if present. -/
def lookupSize (d : Dir) (name : String) : Option Nat :=
  (d.find? fun e => e.1 == name).map (·.2)

/-- Remove one file name from the directory. -/
def removeFile (d : Dir) (name : String) : Dir := d.filter fun e => !(e.1 == name)

/-- `shutil.move src dst` inside one directory: drop `src` and any existing
`dst`, add `dst` with the size of `src`; no-op if `src` is absent. -/
def moveFile (d : Dir) (src dst : String) : Dir :=
  match lookupSize d src with
  | none => d
  | some sz => (removeFile (removeFile d src) dst) ++ [(dst, sz)]

/-- The cleanup block of the exception handler (lines 434-441): unlink the
destination if present, then every `*.mp3` and then every `*.webm` glob
match. -/
def cleanupPartial (d : Dir) (outName : String) : Dir :=
  ((removeFile d outName).filter fun e => !globMatch ".mp3" e.1).filter
    fun e => !globMatch ".webm" e.1

/-- Black-box description of one yt-dlp invocation. -/
structure DlFsRun where
  raisesDl : Bool
  dlErrMsg : String
  infoOk : Bool
  videoId : String
  dirAfterDl : Dir

/-- Lines 402-416: locate the produced MP3 — `<videoId>.mp3` if present, else
the first `*.mp3` glob match — and move it onto the destination; `none` when
no MP3 exists (the "no MP3 file found" error). -/
def pickMp3 (d : Dir) (videoId outName : String) : Option Dir :=
  if (lookupSize d (videoId ++ ".mp3")).isSome then
    some (moveFile d (videoId ++ ".mp3") outName)
  else
    match d.find? fun f => globMatch ".mp3" f.1 with
    | some f => some (moveFile d f.1 outName)
    | none => none

/-- `download_audio`, as a transformer of the destination directory. The
result carries the final directory contents; `.error` additionally carries
the message of the `RuntimeError` re-raised by the outer handler. -/
def download_audio (outName : String) (e : DlFsRun) : Except (String × Dir) Dir :=
  if e.raisesDl then
    .error ("Failed to download audio: Failed to download video: " ++ e.dlErrMsg,
      cleanupPartial e.dirAfterDl outName)
  else if e.infoOk = false then
    .error ("Failed to download audio: Failed to extract video info",
      cleanupPartial e.dirAfterDl outName)
  else
    match pickMp3 e.dirAfterDl e.videoId outName with
    | none =>
      .error ("Failed to download audio: Download completed but no MP3 file found",
        cleanupPartial e.dirAfterDl outName)
    | some d2 =>
      if (lookupSize d2 outName).isNone then
        .error ("Failed to download audio: Failed to move audio file",
          cleanupPartial d2 outName)
      else if lookupSize d2 outName = some 0 then
        .error ("Failed to download audio: Downloaded file is empty",
          cleanupPartial d2 outName)
      else .ok d2

/-! ## The pipeline — `process_transcription` (lines 462-602)

The pipeline is embedded as a pure function from a description of one task
run (the URL, the method string, and the behaviour of the three external
collaborators: the transcript provider, yt-dlp, and the Whisper worker) to
the sequence of `_send_progress` calls it makes plus the fate of the per-task
temporary directory. Each `_send_progress` call records its data dict in the
registry (`update_progress`, line 616) before attempting delivery; when the
dict carries `complete` and `success` it first calls
`save_transcription_result` (lines 619-628), whose exception would abort the
call before any `callback` attempt — `reachedCallback` is false for exactly
that case. -/

/-- The progress dict passed to `_send_progress` / `update_progress` /
`callback`: one optional field per key the source ever inserts. -/
structure Event where
  task_id : String
  progress : Option ℚ := none
  message : Option String := none
  complete : Bool := false
  success : Option Bool := none
  error : Option String := none
  youtube_transcript : Option String := none
  whisper_transcript : Option String := none
  segments : Option (List (String × ℚ × ℚ)) := none
  download_speed : Option String := none
  eta : Option String := none
  output : Option String := none
  debug : Option String := none
deriving DecidableEq

/-- The registry dict stored by `_send_progress` via `update_progress` (line
616): built from the arguments alone, before any delivery attempt, hence
independent of the delivery oracle. -/
def sendProgressStored (e : Event) (_sinkOk : Nat → Bool) : Event := e

/-- Result dict of `get_youtube_transcript` (lines 233-243). -/
structure YTRes where
  success : Bool
  text : String
  error : String
deriving DecidableEq

/-- Result dict returned by `_transcribe_in_process` through the process
pool; `ok = false` also covers a crashed worker (a raising `future.result()`),
with `error` the exception text either way. -/
structure WRes where
  ok : Bool
  text : String
  segments : List (String × ℚ × ℚ)
  error : String
deriving DecidableEq

/-- One dict handed to `dl_cb` by `_yt_dlp_hook` (lines 446-460): a percent
plus optional speed/ETA strings. -/
structure DlHook where
  progress : ℚ
  speed : Option String
  eta : Option String
deriving DecidableEq

/-- One JSON line of the worker's progress log, as decoded by the relay loop
(lines 533-568): tagged by its `type` key; `malformed` stands for a line
`json.loads` rejects (skipped at line 540). For a `progress` line, `out` and
`segs` are `update.get("output", "")` and `update.get("segments", [])`. -/
inductive WUpdate where
  | progress (pct : ℚ) (out : String) (segs : List (String × ℚ × ℚ))
  | output (text : String)
  | debug (message : String)
  | error (err : String)
  | malformed
deriving DecidableEq

/-- Description of one `process_transcription` run: its arguments and the
behaviour of the external collaborators. `wUpdates` carries the wall-clock
time at which the relay loop decodes each log line, to state timing claims;
`saveOk` tells whether `save_transcription_result` returns normally, and
`saveErr` the text of its exception otherwise. -/
structure Run where
  taskId : String
  url : List Char
  method : String
  yt : YTRes
  hooks : List DlHook
  dlOk : Bool
  dlErr : String
  wUpdates : List (ℚ × WUpdate)
  wRes : WRes
  saveOk : Bool
  saveErr : String

/-- One `_send_progress` invocation: the dict it stored in the registry, and
whether control reached the `callback` retry loop (false only when a
successful-terminal save raised first). -/
structure SendCall where
  event : Event
  reachedCallback : Bool
deriving DecidableEq

/-- Line 483: `_send_progress(task_id, cb, 0, "Fetching YouTube transcript...")`. -/
def fetchEvent (tid : String) : Event :=
  { task_id := tid, progress := some 0, message := some "Fetching YouTube transcript..." }

/-- Lines 488-490: the terminal event of the YouTube-only early return. -/
def ytCompleteEvent (tid txt : String) : Event :=
  { task_id := tid, progress := some 100, message := some "Complete", complete := true,
    success := some true, youtube_transcript := some txt }

/-- Lines 499-504: `dl_cb` rescales the hook percent by
`start_progress + p * 0.3` and forwards speed/ETA. -/
def dlEvent (tid : String) (start : ℚ) (h : DlHook) : Event :=
  { task_id := tid, progress := some (start + h.progress * (3 / 10)),
    message := some "Downloading audio...", download_speed := h.speed, eta := h.eta }

/-- Lines 510-511: `_send_progress(…, start_progress + 30, "Starting transcription...")`. -/
def startingEvent (tid : String) (start : ℚ) : Event :=
  { task_id := tid, progress := some (start + 30), message := some "Starting transcription..." }

/-- Lines 542-568: the event the relay loop sends for one decoded log line.
`progress` lines are rescaled by `start_progress + 30 + pct * 0.4`; `output`,
`debug` and `error` lines are forwarded with no progress; malformed lines are
skipped. -/
def relayEvent (tid : String) (start : ℚ) : WUpdate → Option Event
  | .progress pct out segs =>
    some { task_id := tid, progress := some (start + 30 + pct * (2 / 5)),
           message := some "Transcribing...", output := some out, segments := some segs }
  | .output t => some { task_id := tid, output := some t }
  | .debug m => some { task_id := tid, debug := some m }
  | .error err => some { task_id := tid, error := some err }
  | .malformed => none

/-- The relay loop over the decoded log lines. The source sets
`last_progress_time = time.time()` once (line 527) and never reads it again,
so the decode timestamps do not influence the output: every non-malformed
line is forwarded at once. -/
def relayEvents (tid : String) (start : ℚ) (tus : List (ℚ × WUpdate)) : List Event :=
  tus.filterMap fun tu => relayEvent tid start tu.2

/-- Lines 579-588: the terminal event of a successful Whisper run. -/
def whisperCompleteEvent (tid : String) (ytText : Option String) (w : WRes) : Event :=
  { task_id := tid, progress := some 100, message := some "Complete", complete := true,
    success := some true, youtube_transcript := ytText,
    whisper_transcript := some w.text, segments := some w.segments }

/-- Lines 595-596: the terminal event of the `except` handler. -/
def errorEvent (tid msg : String) : Event :=
  { task_id := tid, progress := some 100, message := some "Error", complete := true,
    success := some false, error := some msg }

/-- The percents of the `progress`-tagged log lines, in order. -/
def wpcts (tus : List (ℚ × WUpdate)) : List ℚ :=
  tus.filterMap fun tu =>
    match tu.2 with
    | .progress p _ _ => some p
    | _ => none

/-- Lines 482-484: the transcript-fetch phase runs for methods `YouTube` and
`Both` and sends exactly the initial 0% event. -/
def phase1Of (r : Run) : List SendCall :=
  if r.method = "YouTube" ∨ r.method = "Both" then [⟨fetchEvent r.taskId, true⟩] else []

/-- Line 497: `start_progress = 30 if (youtube_result and youtube_result["success"])
else 0`; `youtube_result` is non-None in the Whisper branch only for `Both`. -/
def startOf (r : Run) : ℚ :=
  if r.method = "Both" ∧ r.yt.success = true then 30 else 0

/-- The events produced by the download progress hooks through `dl_cb`. -/
def dlSendsOf (r : Run) : List SendCall :=
  r.hooks.map fun h => ⟨dlEvent r.taskId (startOf r) h, true⟩

/-- The events produced by the relay loop over the worker's log lines. -/
def relaySendsOf (r : Run) : List SendCall :=
  (relayEvents r.taskId (startOf r) r.wUpdates).map fun e => ⟨e, true⟩

/-- Lines 583-585: the YouTube transcript carried by the terminal event. -/
def ytTextOf (r : Run) : Option String :=
  if r.method = "Both" ∧ r.yt.success = true then some r.yt.text else none

/-- A successful-terminal `_send_progress` call: the dict is recorded, then
saved; if the save raises, the callback is never attempted and the except
handler sends an Error terminal instead. -/
def terminalOk (r : Run) (e : Event) : List SendCall :=
  [⟨e, r.saveOk⟩] ++ (if r.saveOk then [] else [⟨errorEvent r.taskId r.saveErr, true⟩])

/-- The body of `process_transcription` inside its `try`: the `_send_progress`
calls made, in order, and whether the temporary directory was created.
Mirrors the control flow of lines 472-596. -/
def runBody (r : Run) : List SendCall × Bool :=
  match extract_video_id r.url with
  | none => ([⟨errorEvent r.taskId "Invalid YouTube URL", true⟩], false)
  | some _ =>
    if r.method = "YouTube" ∧ r.yt.success = true then
      -- early return (lines 485-491); the terminal dict is saved first, and a
      -- raising save diverts into the except handler
      (phase1Of r ++ terminalOk r (ytCompleteEvent r.taskId r.yt.text), false)
    else if r.method = "Whisper" ∨ r.method = "Both" then
      if r.dlOk = false then
        -- download_audio raised; its message reaches the except handler
        (phase1Of r ++ dlSendsOf r ++
          [⟨errorEvent r.taskId ("Failed to download audio: " ++ r.dlErr), true⟩], true)
      else if r.wRes.ok then
        -- line 429: download_audio ends with progress_cb({"progress": 100}),
        -- then the 'Starting transcription...' event, the relay loop, and the
        -- successful terminal
        (phase1Of r ++ dlSendsOf r ++
          [⟨dlEvent r.taskId (startOf r) ⟨100, none, none⟩, true⟩,
           ⟨startingEvent r.taskId (startOf r), true⟩] ++
          relaySendsOf r ++
          terminalOk r (whisperCompleteEvent r.taskId (ytTextOf r) r.wRes), true)
      else
        -- line 591: raise RuntimeError(result error), caught at line 593
        (phase1Of r ++ dlSendsOf r ++
          [⟨dlEvent r.taskId (startOf r) ⟨100, none, none⟩, true⟩,
           ⟨startingEvent r.taskId (startOf r), true⟩] ++
          relaySendsOf r ++
          [⟨errorEvent r.taskId r.wRes.error, true⟩], true)
    else
      -- no branch matched: the function falls through to its finally clause
      -- with nothing more sent (in particular: method "YouTube" with a failed
      -- transcript fetch ends here)
      (phase1Of r, false)

/-- Outcome of one `process_transcription` call. -/
structure RunOut where
  sends : List SendCall
  tempDirCreated : Bool
  tempDirAfter : Bool

/-- `process_transcription`: the body, then the `finally` clause (lines
597-602), which removes the temporary directory whenever it exists (`rmtree`
modelled as succeeding). -/
def processTranscription (r : Run) : RunOut :=
  let b := runBody r
  { sends := b.1, tempDirCreated := b.2, tempDirAfter := false }

/-- The successive dicts stored in the registry by `update_progress`. -/
def registryTrace (r : Run) : List Event :=
  (processTranscription r).sends.map (·.event)

/-- The dicts that reach the `callback` retry loop of `_send_progress`. -/
def callbackSends (r : Run) : List Event :=
  ((processTranscription r).sends.filter (·.reachedCallback)).map (·.event)

/-- Expansion of a send sequence into actual `callback(data)` invocations,
numbering the sends from `i`: each send is attempted `attemptCount` times
under its column of the oracle, every attempt passing the same dict. -/
def deliveriesFrom (oracle : Nat → Nat → Bool) (i : Nat) : List Event → List Event
  | [] => []
  | e :: es => List.replicate (attemptCount (oracle i)) e ++ deliveriesFrom oracle (i + 1) es

/-- Expansion of a send sequence into actual `callback(data)` invocations:
the i-th send is attempted `attemptCount (oracle i)` times, each attempt
passing the same dict. -/
def deliveries (oracle : Nat → Nat → Bool) (es : List Event) : List Event :=
  deliveriesFrom oracle 0 es

/-- All `callback(data)` invocations of one run, under a delivery oracle
(`oracle i j` = does the j-th attempt of the i-th send succeed). -/
def sinkTrace (r : Run) (oracle : Nat → Nat → Bool) : List Event :=
  deliveries oracle (callbackSends r)

/-- The progress values recorded over the run, in order (dicts without a
`progress` key contribute nothing). -/
def progressSeq (r : Run) : List ℚ :=
  (registryTrace r).filterMap (·.progress)

/-! ## `process_file_transcription` (lines 245-375), cleanup behaviour

Only its resource cleanup is modelled (claim C9): the progress file is
created by `NamedTemporaryFile` (line 274) unless the initial direct
`progress_callback` call (lines 266-271) raised first, and every exit of the
inner `try` passes through the `finally` clause at lines 355-361, which
unlinks it (`os.unlink` modelled as succeeding). -/

/-- Description of one `process_file_transcription` run. -/
structure FileRun where
  cbOk : Bool
  wRes : WRes
  saveOk : Bool

/-- Fate of the per-task progress file. -/
structure FileRunOut where
  progressFileCreated : Bool
  progressFileAfter : Bool

/-- `process_file_transcription`, restricted to the progress-file lifecycle:
whatever the worker and save outcomes, the inner `finally` unlinks the file. -/
def processFileTranscription (f : FileRun) : FileRunOut :=
  if f.cbOk = false then
    -- the initial callback raised before the NamedTemporaryFile line ran
    { progressFileCreated := false, progressFileAfter := false }
  else
    -- created at line 274; success, worker failure and save failure all exit
    -- through the finally clause, which unlinks it
    { progressFileCreated := true, progressFileAfter := false }

/-! ## Helper lemmas -/

theorem customStdoutWrites_spec (ws : List String) (last : Option String) :
    List.Chain' (· ≠ ·) (customStdoutWrites last ws) ∧
      ∀ m ∈ (customStdoutWrites last ws).head?, some m ≠ last := by
  induction ws generalizing last with
  | nil => simp [customStdoutWrites]
  | cons t ts ih =>
    by_cases h1 : pyStrip t = ""
    · simpa [customStdoutWrites, h1] using ih last
    · by_cases h2 : some (pyStrip t) = last
      · simpa [customStdoutWrites, h1, h2] using ih last
      · have hrec := ih (some (pyStrip t))
        have hred : customStdoutWrites last (t :: ts)
            = pyStrip t :: customStdoutWrites (some (pyStrip t)) ts := by
          simp [customStdoutWrites, h1, h2]
        refine ⟨?_, ?_⟩
        · rw [hred, List.chain'_cons']
          refine ⟨fun b hb => ?_, hrec.1⟩
          have := hrec.2 b hb
          intro hc
          exact this (by rw [hc])
        · intro m hm
          rw [hred] at hm
          simp only [List.head?_cons, Option.mem_def, Option.some_inj] at hm
          rw [← hm]
          exact h2

theorem lookupSize_removeFile (d : Dir) (name : String) :
    lookupSize (removeFile d name) name = none := by
  induction d with
  | nil => rfl
  | cons a d ih =>
    simp only [removeFile, List.filter_cons] at *
    by_cases h : a.1 = name
    · simpa [h] using ih
    · simpa [lookupSize, List.find?_cons, h] using ih

theorem lookupSize_filter_none (d : Dir) (p : String × Nat → Bool) (name : String)
    (h : lookupSize d name = none) : lookupSize (d.filter p) name = none := by
  induction d with
  | nil => rfl
  | cons a d ih =>
    by_cases ha : a.1 = name
    · simp [lookupSize, List.find?_cons, ha] at h
    · have h2 : lookupSize d name = none := by
        simpa [lookupSize, List.find?_cons, ha] using h
      by_cases hp : p a = true
      · simpa [List.filter_cons, hp, lookupSize, List.find?_cons, ha] using ih h2
      · simpa [List.filter_cons, hp] using ih h2

theorem cleanupPartial_spec (d : Dir) (outName : String) :
    lookupSize (cleanupPartial d outName) outName = none ∧
      ∀ f ∈ cleanupPartial d outName,
        globMatch ".mp3" f.1 = false ∧ globMatch ".webm" f.1 = false := by
  constructor
  · exact lookupSize_filter_none _ _ _
      (lookupSize_filter_none _ _ _ (lookupSize_removeFile d outName))
  · intro f hf
    unfold cleanupPartial at hf
    have h2 := (List.mem_filter.mp hf).2
    have h1 := (List.mem_filter.mp (List.mem_filter.mp hf).1).2
    constructor
    · simpa using h1
    · simpa using h2

/-- Element-wise disagreement of two character lists inside their common
length: a decidable sufficient criterion for one never being a prefix of the
other, whatever is appended. -/
def mismatchWithin : List Char → List Char → Bool
  | a :: as, b :: bs => (a != b) || mismatchWithin as bs
  | _, _ => false

theorem mismatchWithin_isPrefixOf (alt : List Char) :
    ∀ s : List Char, mismatchWithin alt s = true →
      ∀ t, alt.isPrefixOf (s ++ t) = false := by
  induction alt with
  | nil => intro s h t; cases s <;> simp [mismatchWithin] at h
  | cons a as ih =>
    intro s h t
    cases s with
    | nil => simp [mismatchWithin] at h
    | cons b bs =>
      simp only [mismatchWithin, Bool.or_eq_true, bne_iff_ne] at h
      rw [List.cons_append, List.isPrefixOf_cons₂]
      rcases h with h | h
      · simp [h]
      · simp [ih bs h t]

theorem tryAlt_of_not_prefix (alt s : List Char) (h : alt.isPrefixOf s = false) :
    tryAlt alt s = none := by
  simp [tryAlt, h]

theorem tryAlts_none (alts : List (List Char)) (s : List Char)
    (h : ∀ alt ∈ alts, tryAlt alt s = none) : tryAlts alts s = none := by
  induction alts with
  | nil => rfl
  | cons a rest ih =>
    rw [tryAlts, h a (by simp)]
    exact ih fun alt halt => h alt (by simp [halt])

theorem reSearch_append_skip (alts : List (List Char)) (s : List Char)
    (h : ∀ i, i < s.length → ∀ alt ∈ alts, mismatchWithin alt (s.drop i) = true)
    (t : List Char) : reSearch alts (s ++ t) = reSearch alts t := by
  induction s with
  | nil => simp
  | cons c cs ih =>
    have htry : tryAlts alts (c :: (cs ++ t)) = none := by
      refine tryAlts_none _ _ fun alt halt => tryAlt_of_not_prefix _ _ ?_
      have h0 := h 0 (by simp) alt halt
      have hpre := mismatchWithin_isPrefixOf alt (c :: cs) (by simpa using h0) t
      simpa using hpre
    rw [List.cons_append, reSearch, htry]
    exact ih fun i hi alt halt => by
      simpa using h (i + 1) (by simpa using hi) alt halt

theorem isPrefixOf_self_append (alt t : List Char) :
    alt.isPrefixOf (alt ++ t) = true := by
  induction alt with
  | nil => simp
  | cons a as ih => simpa [List.isPrefixOf_cons₂] using ih

theorem tryAlt_self (alt v : List Char) (hne : v ≠ [])
    (hv : ∀ c ∈ v, stopChar c = false) : tryAlt alt (alt ++ v) = some v := by
  have ht : v.takeWhile (fun c => !stopChar c) = v :=
    List.takeWhile_eq_self_iff.mpr fun x hx => by simp [hv x hx]
  simp [tryAlt, isPrefixOf_self_append, List.drop_left, ht, hne]

theorem reSearch_of_tryAlts_some (alts : List (List Char)) (s : List Char)
    (r : List Char) (hs : s ≠ []) (h : tryAlts alts s = some r) :
    reSearch alts s = some r := by
  cases s with
  | nil => exact absurd rfl hs
  | cons c cs => rw [reSearch, h]; rfl

theorem tryAlts_cons (a : List Char) (rest : List (List Char)) (s : List Char) :
    tryAlts (a :: rest) s = (tryAlt a s).orElse fun _ => tryAlts rest s := rfl

theorem consAppend_ne_nil {α : Type} (a : α) (l t : List α) :
    (a :: l) ++ t ≠ [] := by simp

theorem orElse_none_eval {α : Type} (f : Unit → Option α) :
    (none : Option α).orElse f = f () := rfl

theorem orElse_some_eval {α : Type} (x : α) (f : Unit → Option α) :
    (some x).orElse f = some x := rfl

theorem attemptCount_first (sinkOk : Nat → Bool) (h : sinkOk 0 = true) :
    attemptCount sinkOk = 1 := by
  simp [attemptCount, sendRetry, sendAttemptLoop, h]

theorem deliveriesFrom_firstOk (oracle : Nat → Nat → Bool)
    (hfirst : ∀ j, oracle j 0 = true) (es : List Event) :
    ∀ i, deliveriesFrom oracle i es = es := by
  induction es with
  | nil => intro i; rfl
  | cons e es ih =>
    intro i
    rw [deliveriesFrom, attemptCount_first _ (hfirst i), ih (i + 1)]
    rfl

theorem mem_deliveriesFrom (oracle : Nat → Nat → Bool) (es : List Event)
    (e : Event) : ∀ i, e ∈ deliveriesFrom oracle i es → e ∈ es := by
  induction es with
  | nil => intro i h; exact absurd h (by simp [deliveriesFrom])
  | cons a es ih =>
    intro i h
    rw [deliveriesFrom, List.mem_append] at h
    rcases h with h | h
    · rw [List.eq_of_mem_replicate h]
      exact List.mem_cons_self a es
    · exact List.mem_cons_of_mem a (ih (i + 1) h)

theorem countP_deliveriesFrom_zero (oracle : Nat → Nat → Bool) (es : List Event)
    (p : Event → Bool) (h : ∀ e ∈ es, p e = false) (i : Nat) :
    (deliveriesFrom oracle i es).countP p = 0 :=
  List.countP_eq_zero.mpr fun e he => by
    simp [h e (mem_deliveriesFrom oracle es e i he)]

theorem countP_deliveriesFrom (oracle : Nat → Nat → Bool) (es : List Event)
    (p : Event → Bool) (hfirst : ∀ j, oracle j 0 = true) (i : Nat) :
    (deliveriesFrom oracle i es).countP p = es.countP p := by
  rw [deliveriesFrom_firstOk oracle hfirst es i]

/-- The relay loop's per-line events never carry the `complete` key. -/
theorem relayEvent_not_complete (tid : String) (start : ℚ) (u : WUpdate)
    (e : Event) (h : relayEvent tid start u = some e) : e.complete = false := by
  cases u with
  | progress p o s => simp only [relayEvent, Option.some.injEq] at h; subst h; rfl
  | output t => simp only [relayEvent, Option.some.injEq] at h; subst h; rfl
  | debug m => simp only [relayEvent, Option.some.injEq] at h; subst h; rfl
  | error err => simp only [relayEvent, Option.some.injEq] at h; subst h; rfl
  | malformed => simp [relayEvent] at h

theorem relayEvents_not_complete (tid : String) (start : ℚ)
    (tus : List (ℚ × WUpdate)) :
    ∀ e ∈ relayEvents tid start tus, e.complete = false := by
  intro e he
  simp only [relayEvents, List.mem_filterMap] at he
  obtain ⟨tu, _, htu⟩ := he
  exact relayEvent_not_complete tid start tu.2 e htu

/-- The registry view and the callback view of a send sequence. -/
def regEvents (l : List SendCall) : List Event := l.map (·.event)

def cbEvents (l : List SendCall) : List Event :=
  (l.filter (·.reachedCallback)).map (·.event)

theorem registryTrace_eq (r : Run) : registryTrace r = regEvents (runBody r).1 := rfl

theorem callbackSends_eq (r : Run) : callbackSends r = cbEvents (runBody r).1 := rfl

/-! ### Branch equations for `runBody` -/

theorem runBody_invalid (r : Run) (h : extract_video_id r.url = none) :
    runBody r = ([⟨errorEvent r.taskId "Invalid YouTube URL", true⟩], false) := by
  simp [runBody, h]

theorem runBody_yt_success (r : Run) (u : List Char)
    (h : extract_video_id r.url = some u) (hm : r.method = "YouTube")
    (hs : r.yt.success = true) :
    runBody r
      = (phase1Of r ++ terminalOk r (ytCompleteEvent r.taskId r.yt.text), false) := by
  simp [runBody, h, hm, hs]

theorem runBody_yt_failure (r : Run) (u : List Char)
    (h : extract_video_id r.url = some u) (hm : r.method = "YouTube")
    (hs : r.yt.success = false) :
    runBody r = (phase1Of r, false) := by
  simp [runBody, h, hm, hs]

theorem not_yt_of_whisper (r : Run) (hw : r.method = "Whisper" ∨ r.method = "Both") :
    ¬(r.method = "YouTube" ∧ r.yt.success = true) := by
  rcases hw with h | h <;> simp [h]

theorem runBody_dl_fail (r : Run) (u : List Char)
    (h : extract_video_id r.url = some u)
    (hw : r.method = "Whisper" ∨ r.method = "Both") (hdl : r.dlOk = false) :
    runBody r = (phase1Of r ++ dlSendsOf r ++
      [⟨errorEvent r.taskId ("Failed to download audio: " ++ r.dlErr), true⟩],
      true) := by
  simp [runBody, h, hw, hdl, not_yt_of_whisper r hw]

theorem runBody_whisper_ok (r : Run) (u : List Char)
    (h : extract_video_id r.url = some u)
    (hw : r.method = "Whisper" ∨ r.method = "Both") (hdl : r.dlOk = true)
    (hres : r.wRes.ok = true) :
    runBody r = (phase1Of r ++ dlSendsOf r ++
      [⟨dlEvent r.taskId (startOf r) ⟨100, none, none⟩, true⟩,
       ⟨startingEvent r.taskId (startOf r), true⟩] ++
      relaySendsOf r ++
      terminalOk r (whisperCompleteEvent r.taskId (ytTextOf r) r.wRes), true) := by
  simp [runBody, h, hw, hdl, hres, not_yt_of_whisper r hw]

theorem runBody_whisper_fail (r : Run) (u : List Char)
    (h : extract_video_id r.url = some u)
    (hw : r.method = "Whisper" ∨ r.method = "Both") (hdl : r.dlOk = true)
    (hres : r.wRes.ok = false) :
    runBody r = (phase1Of r ++ dlSendsOf r ++
      [⟨dlEvent r.taskId (startOf r) ⟨100, none, none⟩, true⟩,
       ⟨startingEvent r.taskId (startOf r), true⟩] ++
      relaySendsOf r ++
      [⟨errorEvent r.taskId r.wRes.error, true⟩], true) := by
  simp [runBody, h, hw, hdl, hres, not_yt_of_whisper r hw]

theorem runBody_no_branch (r : Run) (u : List Char)
    (h : extract_video_id r.url = some u)
    (hm : ¬(r.method = "YouTube" ∧ r.yt.success = true))
    (hw : ¬(r.method = "Whisper" ∨ r.method = "Both")) :
    runBody r = (phase1Of r, false) := by
  simp [runBody, h, hm, hw]

/-! ### Terminal-event counts of the building blocks -/

theorem countP_complete_phase1 (r : Run) :
    (regEvents (phase1Of r)).countP (·.complete) = 0 := by
  by_cases h : r.method = "YouTube" ∨ r.method = "Both" <;>
    simp [phase1Of, regEvents, h, fetchEvent]

theorem countP_complete_dlSends (r : Run) :
    (regEvents (dlSendsOf r)).countP (·.complete) = 0 := by
  refine List.countP_eq_zero.mpr fun e he => ?_
  simp only [regEvents, dlSendsOf, List.map_map, List.mem_map] at he
  obtain ⟨hk, _, rfl⟩ := he
  simp [dlEvent]

theorem countP_complete_relaySends (r : Run) :
    (regEvents (relaySendsOf r)).countP (·.complete) = 0 := by
  refine List.countP_eq_zero.mpr fun e he => ?_
  simp only [regEvents, relaySendsOf, List.map_map, List.mem_map] at he
  obtain ⟨ev, hev, rfl⟩ := he
  simp [relayEvents_not_complete _ _ _ _ hev]

theorem cbEvents_append (a b : List SendCall) :
    cbEvents (a ++ b) = cbEvents a ++ cbEvents b := by
  simp [cbEvents]

theorem regEvents_append (a b : List SendCall) :
    regEvents (a ++ b) = regEvents a ++ regEvents b := by
  simp [regEvents]

theorem cbEvents_all_reached (l : List SendCall)
    (h : ∀ c ∈ l, c.reachedCallback = true) : cbEvents l = regEvents l := by
  simp only [cbEvents, regEvents]
  rw [List.filter_eq_self.mpr h]

theorem countP_complete_cb_le_reg (l : List SendCall) :
    (cbEvents l).countP (·.complete) ≤ (regEvents l).countP (·.complete) := by
  simp only [cbEvents, regEvents, List.countP_map]
  exact List.Sublist.countP_le _ (List.filter_sublist l)

theorem countP_complete_cb_terminalOk (r : Run) (e : Event)
    (he : e.complete = true) :
    (cbEvents (terminalOk r e)).countP (·.complete) = 1 := by
  by_cases hs : r.saveOk <;> simp [terminalOk, cbEvents, hs, he, errorEvent]

theorem countP_complete_cb_zero (l : List SendCall)
    (h : (regEvents l).countP (·.complete) = 0) :
    (cbEvents l).countP (·.complete) = 0 :=
  Nat.le_zero.mp (h ▸ countP_complete_cb_le_reg l)

theorem mem_cbEvents_of (l : List SendCall) (e : Event) (h : e ∈ cbEvents l) :
    e ∈ regEvents l := by
  simp only [cbEvents, List.mem_map] at h
  obtain ⟨c, hc, rfl⟩ := h
  exact List.mem_map_of_mem _ (List.mem_of_mem_filter hc)

/-! ### Progress sequences of the building blocks (for claim C4) -/

theorem filterMap_progress_phase1 (r : Run) :
    (regEvents (phase1Of r)).filterMap (·.progress)
      = if r.method = "YouTube" ∨ r.method = "Both" then [(0 : ℚ)] else [] := by
  by_cases h : r.method = "YouTube" ∨ r.method = "Both" <;>
    simp [phase1Of, regEvents, fetchEvent, h]

theorem regEvents_dlSends (r : Run) :
    regEvents (dlSendsOf r)
      = r.hooks.map fun h => dlEvent r.taskId (startOf r) h := by
  unfold regEvents dlSendsOf
  rw [List.map_map]
  rfl

theorem filterMap_progress_dl_list (tid : String) (s : ℚ) (hooks : List DlHook) :
    ((hooks.map fun h => dlEvent tid s h).filterMap (·.progress))
      = hooks.map fun h => s + h.progress * (3 / 10) := by
  induction hooks with
  | nil => rfl
  | cons a l ih => exact congrArg (List.cons (s + a.progress * (3 / 10))) ih

theorem regEvents_relaySends (r : Run) :
    regEvents (relaySendsOf r) = relayEvents r.taskId (startOf r) r.wUpdates := by
  unfold regEvents relaySendsOf
  rw [List.map_map]
  have hid : ((fun x : SendCall => x.event) ∘ fun e : Event => (⟨e, true⟩ : SendCall))
      = id := rfl
  rw [hid, List.map_id]

theorem filterMap_progress_relay (tid : String) (s : ℚ) :
    ∀ tus : List (ℚ × WUpdate),
      (relayEvents tid s tus).filterMap (·.progress)
        = (wpcts tus).map fun p => s + 30 + p * (2 / 5)
  | [] => rfl
  | tu :: tus => by
    have ih := filterMap_progress_relay tid s tus
    cases htu : tu.2 with
    | progress p o sg =>
      simp only [relayEvents, wpcts, List.filterMap_cons, htu, relayEvent] at *
      simpa using ih
    | output t =>
      simp only [relayEvents, wpcts, List.filterMap_cons, htu, relayEvent] at *
      simpa using ih
    | debug m =>
      simp only [relayEvents, wpcts, List.filterMap_cons, htu, relayEvent] at *
      simpa using ih
    | error err =>
      simp only [relayEvents, wpcts, List.filterMap_cons, htu, relayEvent] at *
      simpa using ih
    | malformed =>
      simp only [relayEvents, wpcts, List.filterMap_cons, htu, relayEvent] at *
      simpa using ih

theorem filterMap_progress_terminalOk (r : Run) (e : Event)
    (he : e.progress = some 100) :
    (regEvents (terminalOk r e)).filterMap (·.progress)
      = if r.saveOk then [(100 : ℚ)] else [100, 100] := by
  by_cases hs : r.saveOk <;> simp [terminalOk, regEvents, errorEvent, hs, he]

theorem startOf_bounds (r : Run) : 0 ≤ startOf r ∧ startOf r ≤ 30 := by
  unfold startOf
  by_cases h : r.method = "Both" ∧ r.yt.success = true <;> simp [h]

/-! ### Chain gluing (for claim C4) -/

theorem getLast?_append_last {α : Type} (l1 l2 : List α) {x : α}
    (h : l2.getLast? = some x) : (l1 ++ l2).getLast? = some x := by
  rw [List.getLast?_append, h]
  rfl

theorem chain_le_glue (l1 l2 : List ℚ) (m : ℚ) (h1 : List.Chain' (· ≤ ·) l1)
    (h2 : List.Chain' (· ≤ ·) l2) (hm1 : ∀ x ∈ l1, x ≤ m)
    (hm2 : ∀ y ∈ l2, m ≤ y) : List.Chain' (· ≤ ·) (l1 ++ l2) := by
  rw [List.chain'_append]
  refine ⟨h1, h2, fun x hx y hy => ?_⟩
  have hx2 : x ∈ l1 := List.mem_of_getLast?_eq_some hx
  have hy2 : y ∈ l2 := List.mem_of_mem_head? hy
  exact le_trans (hm1 x hx2) (hm2 y hy2)

theorem chain_le_affine (s c : ℚ) (hc : 0 ≤ c) (l : List ℚ)
    (h : List.Chain' (· ≤ ·) l) :
    List.Chain' (· ≤ ·) (l.map fun p => s + p * c) := by
  rw [List.chain'_map]
  refine h.imp fun a b hab => ?_
  have := mul_le_mul_of_nonneg_right hab hc
  linarith

/-- The spine of the Whisper-branch progress sequence: phase-1 prefix, scaled
download percents, the two `start+30` events, scaled transcription percents,
and the terminal 100s, laid right-associated. -/
theorem c4_core (p1 hookM relayM T : List ℚ) (s : ℚ) (hs0 : 0 ≤ s)
    (hs30 : s ≤ 30) (hp1 : p1 = [] ∨ p1 = [0])
    (hhc : List.Chain' (· ≤ ·) hookM) (hhm : ∀ x ∈ hookM, s ≤ x ∧ x ≤ s + 30)
    (hrc : List.Chain' (· ≤ ·) relayM)
    (hrm : ∀ x ∈ relayM, s + 30 ≤ x ∧ x ≤ 100)
    (hT : T = [(100 : ℚ)] ∨ T = [100, 100]) :
    List.Chain' (· ≤ ·) (p1 ++ (hookM ++ ([s + 30, s + 30] ++ (relayM ++ T)))) ∧
      (p1 ++ (hookM ++ ([s + 30, s + 30] ++ (relayM ++ T)))).getLast?
        = some 100 := by
  have hTc : List.Chain' (· ≤ ·) T := by rcases hT with rfl | rfl <;> simp
  have hTm : ∀ y ∈ T, (100 : ℚ) ≤ y ∧ y ≤ 100 := by
    rcases hT with rfl | rfl
    · intro y hy
      simp at hy
      simp [hy]
    · intro y hy
      simp at hy
      rcases hy with rfl | rfl <;> simp
  have g4 : List.Chain' (· ≤ ·) (relayM ++ T) :=
    chain_le_glue relayM T 100 hrc hTc (fun x hx => (hrm x hx).2)
      (fun y hy => (hTm y hy).1)
  have hrtm : ∀ y ∈ relayM ++ T, s + 30 ≤ y := by
    intro y hy
    rcases List.mem_append.mp hy with hy | hy
    · exact (hrm y hy).1
    · have := (hTm y hy).1; linarith
  have g3 : List.Chain' (· ≤ ·) ([s + 30, s + 30] ++ (relayM ++ T)) := by
    refine chain_le_glue _ _ (s + 30) (by simp) g4 ?_ hrtm
    intro x hx
    rcases List.mem_cons.mp hx with rfl | hx
    · exact le_refl _
    · simp at hx; rw [hx]
  have hmid : ∀ y ∈ [s + 30, s + 30] ++ (relayM ++ T), s + 30 ≤ y := by
    intro y hy
    rcases List.mem_append.mp hy with hy | hy
    · rcases List.mem_cons.mp hy with rfl | hy
      · exact le_refl _
      · simp at hy; rw [hy]
    · exact hrtm y hy
  have g2 : List.Chain' (· ≤ ·)
      (hookM ++ ([s + 30, s + 30] ++ (relayM ++ T))) :=
    chain_le_glue _ _ (s + 30) hhc g3 (fun x hx => (hhm x hx).2) hmid
  have hp1c : List.Chain' (· ≤ ·) p1 := by rcases hp1 with rfl | rfl <;> simp
  have g1 : List.Chain' (· ≤ ·)
      (p1 ++ (hookM ++ ([s + 30, s + 30] ++ (relayM ++ T)))) := by
    refine chain_le_glue _ _ 0 hp1c g2 ?_ ?_
    · intro x hx
      rcases hp1 with rfl | rfl
      · simp at hx
      · simp at hx; rw [hx]
    · intro y hy
      rcases List.mem_append.mp hy with hy | hy
      · have := (hhm y hy).1; linarith
      · have := hmid y hy; linarith
  refine ⟨g1, ?_⟩
  have hTl : T.getLast? = some 100 := by rcases hT with rfl | rfl <;> rfl
  exact getLast?_append_last p1 _
    (getLast?_append_last hookM _
      (getLast?_append_last [s + 30, s + 30] _
        (getLast?_append_last relayM T hTl)))

/-- The spine of the download-failure progress sequence. -/
theorem c4_core_dl (p1 hookM : List ℚ) (s : ℚ) (hs0 : 0 ≤ s) (hs30 : s ≤ 30)
    (hp1 : p1 = [] ∨ p1 = [0])
    (hhc : List.Chain' (· ≤ ·) hookM)
    (hhm : ∀ x ∈ hookM, s ≤ x ∧ x ≤ s + 30) :
    List.Chain' (· ≤ ·) (p1 ++ (hookM ++ [(100 : ℚ)])) ∧
      (p1 ++ (hookM ++ [(100 : ℚ)])).getLast? = some 100 := by
  have hp1c : List.Chain' (· ≤ ·) p1 := by rcases hp1 with rfl | rfl <;> simp
  have g2 : List.Chain' (· ≤ ·) (hookM ++ [(100 : ℚ)]) := by
    refine chain_le_glue _ _ 100 hhc (by simp) ?_ (by simp)
    intro x hx
    have := (hhm x hx).2; linarith
  have g1 : List.Chain' (· ≤ ·) (p1 ++ (hookM ++ [(100 : ℚ)])) := by
    refine chain_le_glue _ _ 0 hp1c g2 ?_ ?_
    · intro x hx
      rcases hp1 with rfl | rfl
      · simp at hx
      · simp at hx; rw [hx]
    · intro y hy
      rcases List.mem_append.mp hy with hy | hy
      · have := (hhm y hy).1; linarith
      · simp at hy; rw [hy]; norm_num
  exact ⟨g1, getLast?_append_last p1 _ (getLast?_append_last hookM [(100 : ℚ)] rfl)⟩

/-! ### Concrete runs used as inputs of counterexamples and witnesses -/

/-- A YouTube-only run whose provider fetch succeeds. -/
def runYtOk : Run :=
  { taskId := "t1", url := ("https://youtu.be/abc123").data, method := "YouTube",
    yt := ⟨true, "hello world", ""⟩, hooks := [], dlOk := true, dlErr := "",
    wUpdates := [], wRes := ⟨true, "", [], ""⟩, saveOk := true, saveErr := "" }

/-- A YouTube-only run whose provider fetch fails. -/
def runYtFail : Run :=
  { taskId := "t2", url := ("https://youtu.be/abc123").data, method := "YouTube",
    yt := ⟨false, "", "Transcripts disabled"⟩, hooks := [], dlOk := true,
    dlErr := "", wUpdates := [], wRes := ⟨true, "", [], ""⟩, saveOk := true,
    saveErr := "" }

/-- A `Both` run: provider fetch fails, yt-dlp reports 50% then 10% and then
the download fails. -/
def runDlJitter : Run :=
  { taskId := "t3", url := ("https://youtu.be/abc123").data, method := "Both",
    yt := ⟨false, "", "disabled"⟩, hooks := [⟨50, none, none⟩, ⟨10, none, none⟩],
    dlOk := false, dlErr := "boom", wUpdates := [], wRes := ⟨true, "", [], ""⟩,
    saveOk := true, saveErr := "" }

/-! ## Claim theorems -/

/-- C10: inside the worker, captured stdout is deduplicated before being
appended to the progress log: a write whose stripped text equals the stripped
text of the immediately preceding non-empty write produces no log entry (the
two write sequences produce the same log), and the log produced by the
capture never contains two consecutive entries with identical message
text. -/
theorem c10_stdout_dedup (last : Option String) (t u : String) (ts ws : List String)
    (h1 : pyStrip t ≠ "") (h2 : pyStrip u = pyStrip t) :
    customStdoutWrites last (t :: u :: ts) = customStdoutWrites last (t :: ts) ∧
      List.Chain' (· ≠ ·) (customStdoutWrites none ws) := by
  constructor
  · by_cases h3 : some (pyStrip t) = last
    · simp [customStdoutWrites, h1, h2, h3]
    · simp [customStdoutWrites, h1, h2, h3]
  · exact (customStdoutWrites_spec ws none).1

/-- Witness for C10 at a concrete input: writing "a" twice logs "a" once, and
a concrete write sequence yields a duplicate-free log. -/
theorem c10_stdout_dedup_witness :
    customStdoutWrites none ["a", " a "] = customStdoutWrites none ["a"] ∧
      List.Chain' (· ≠ ·) (customStdoutWrites none ["x", "x", "y"]) :=
  c10_stdout_dedup none "a" " a " [] ["x", "x", "y"] (by decide) (by decide)

/-- C1 (code bug): when the method is YouTube-only and the provider transcript
fetch fails, `process_transcription` returns silently: no registry record and
no sink invocation ever carries `complete`, so the caller never receives the
terminal Error event the specification guarantees. -/
theorem c1_youtube_failure_no_terminal (r : Run)
    (hvid : extract_video_id r.url ≠ none)
    (hm : r.method = "YouTube") (hyt : r.yt.success = false) :
    (registryTrace r).countP (·.complete) = 0 ∧
      ∀ oracle : Nat → Nat → Bool,
        (sinkTrace r oracle).countP (·.complete) = 0 := by
  obtain ⟨u, hu⟩ := Option.ne_none_iff_exists'.mp hvid
  have hb := runBody_yt_failure r u hu hm hyt
  constructor
  · rw [registryTrace_eq, hb]
    exact countP_complete_phase1 r
  · intro oracle
    show (deliveriesFrom oracle 0 (callbackSends r)).countP (·.complete) = 0
    refine countP_deliveriesFrom_zero oracle _ _ (fun e he => ?_) 0
    have hreg : e ∈ regEvents (phase1Of r) := by
      rw [callbackSends_eq, hb] at he
      exact mem_cbEvents_of _ _ he
    have h0 := List.countP_eq_zero.mp (countP_complete_phase1 r) e hreg
    simpa using h0

/-- Witness for C1 at the failing input: a valid URL, method `YouTube`, and a
failed provider fetch yield a run with no terminal event in the registry. -/
theorem c1_witness : (registryTrace runYtFail).countP (·.complete) = 0 :=
  (c1_youtube_failure_no_terminal runYtFail (by decide) rfl rfl).1

/-- C2 counterexample: on a successful YouTube-only run with a sink that
accepts every call, the terminal Complete payload is delivered to the sink
exactly once — not at least twice. -/
theorem c2_counterexample :
    (sinkTrace runYtOk fun _ _ => true).countP (·.complete) = 1 ∧
      ¬(2 ≤ (sinkTrace runYtOk fun _ _ => true).countP (·.complete)) :=
  ⟨by decide, by decide⟩

/-- C2 amended: each pipeline hands the terminal event to the delivery loop at
most once, and when the sink accepts first attempts the sink receives each
handed event exactly once — there is no designed duplicate delivery of
terminal events (the retry loop repeats a payload only when the sink raised on
it). -/
theorem c2_amended (r : Run) (oracle : Nat → Nat → Bool)
    (hfirst : ∀ j, oracle j 0 = true) :
    (callbackSends r).countP (·.complete) ≤ 1 ∧
      (sinkTrace r oracle).countP (·.complete)
        = (callbackSends r).countP (·.complete) := by
  constructor
  · cases hu : extract_video_id r.url with
    | none =>
      rw [callbackSends_eq, runBody_invalid r hu]
      simp [cbEvents, errorEvent]
    | some u =>
      by_cases hyt : r.method = "YouTube" ∧ r.yt.success = true
      · rw [callbackSends_eq, runBody_yt_success r u hu hyt.1 hyt.2,
          cbEvents_append, List.countP_append,
          countP_complete_cb_zero _ (countP_complete_phase1 r),
          countP_complete_cb_terminalOk r _ rfl]
      · by_cases hw : r.method = "Whisper" ∨ r.method = "Both"
        · cases hdl : r.dlOk with
          | false =>
            rw [callbackSends_eq, runBody_dl_fail r u hu hw hdl,
              cbEvents_append, cbEvents_append, List.countP_append,
              List.countP_append,
              countP_complete_cb_zero _ (countP_complete_phase1 r),
              countP_complete_cb_zero _ (countP_complete_dlSends r)]
            simp [cbEvents, errorEvent]
          | true =>
            cases hres : r.wRes.ok with
            | true =>
              rw [callbackSends_eq, runBody_whisper_ok r u hu hw hdl hres,
                cbEvents_append, cbEvents_append, cbEvents_append,
                cbEvents_append, List.countP_append, List.countP_append,
                List.countP_append, List.countP_append,
                countP_complete_cb_zero _ (countP_complete_phase1 r),
                countP_complete_cb_zero _ (countP_complete_dlSends r),
                countP_complete_cb_zero _ (countP_complete_relaySends r),
                countP_complete_cb_terminalOk r _ rfl]
              simp [cbEvents, dlEvent, startingEvent]
            | false =>
              rw [callbackSends_eq, runBody_whisper_fail r u hu hw hdl hres,
                cbEvents_append, cbEvents_append, cbEvents_append,
                cbEvents_append, List.countP_append, List.countP_append,
                List.countP_append, List.countP_append,
                countP_complete_cb_zero _ (countP_complete_phase1 r),
                countP_complete_cb_zero _ (countP_complete_dlSends r),
                countP_complete_cb_zero _ (countP_complete_relaySends r)]
              simp [cbEvents, dlEvent, startingEvent, errorEvent]
        · rw [callbackSends_eq, runBody_no_branch r u hu hyt hw]
          rw [countP_complete_cb_zero _ (countP_complete_phase1 r)]
          omega
  · show (deliveriesFrom oracle 0 (callbackSends r)).countP (·.complete)
      = (callbackSends r).countP (·.complete)
    exact countP_deliveriesFrom oracle _ _ hfirst 0

/-- Witness for C2 amended at a concrete run and an accepting sink. -/
theorem c2_amended_witness :
    (callbackSends runYtOk).countP (·.complete) ≤ 1 ∧
      (sinkTrace runYtOk fun _ _ => true).countP (·.complete)
        = (callbackSends runYtOk).countP (·.complete) :=
  c2_amended runYtOk (fun _ _ => true) (fun _ => rfl)

/-- C5 counterexample: two Progress lines decoded 0.5 seconds apart — well
under the claimed 2-second minimum interval — are both emitted by the relay
loop: no rate limiting exists (`last_progress_time` is set once and never
read). -/
theorem c5_counterexample :
    relayEvents "t" 0 [((0 : ℚ), WUpdate.progress 10 "" []),
        ((1 / 2 : ℚ), WUpdate.progress 20 "" [])]
      = [{ task_id := "t", progress := some 34, message := some "Transcribing...",
           output := some "", segments := some [] },
         { task_id := "t", progress := some 38, message := some "Transcribing...",
           output := some "", segments := some [] }] ∧
      ((1 / 2 : ℚ) - 0 < 2) := by
  constructor
  · simp only [relayEvents, List.filterMap_cons, relayEvent, List.filterMap_nil,
      Option.some.injEq, Event.mk.injEq]
    norm_num
  · norm_num

/-- C5 amended: the relay loop forwards every decoded event immediately and
unconditionally — its output is independent of the decode timestamps (so
Progress events are not rate-limited either), and Debug/Output lines are each
forwarded as one event. -/
theorem c5_amended (tid : String) (start : ℚ) (tus tus2 : List (ℚ × WUpdate))
    (h : tus.map Prod.snd = tus2.map Prod.snd) :
    relayEvents tid start tus = relayEvents tid start tus2 ∧
    (∀ s, relayEvent tid start (WUpdate.debug s)
      = some { task_id := tid, debug := some s }) ∧
    (∀ t, relayEvent tid start (WUpdate.output t)
      = some { task_id := tid, output := some t }) ∧
    (∀ p o sg, relayEvent tid start (WUpdate.progress p o sg) ≠ none) := by
  refine ⟨?_, fun s => rfl, fun t => rfl, fun p o sg => by simp [relayEvent]⟩
  have em : ∀ l : List (ℚ × WUpdate),
      relayEvents tid start l
        = (l.map Prod.snd).filterMap (relayEvent tid start) := by
    intro l
    rw [List.filterMap_map]
    rfl
  rw [em tus, em tus2, h]

/-- Witness for C5 amended: moving a Debug line's decode time from 0 to 5
seconds changes nothing in the relay output. -/
theorem c5_amended_witness :
    relayEvents "t" 0 [((0 : ℚ), WUpdate.debug "d")]
      = relayEvents "t" 0 [((5 : ℚ), WUpdate.debug "d")] :=
  (c5_amended "t" 0 [((0 : ℚ), WUpdate.debug "d")]
    [((5 : ℚ), WUpdate.debug "d")] rfl).1

/-- C9: the temporary directory of `process_transcription` never survives the
pipeline (the `finally` clause removes it whenever it exists — it was created
exactly when a valid URL entered the Whisper/Both branch), and the progress
log of `process_file_transcription` never survives its inner `finally`. -/
theorem c9_cleanup (r : Run) (f : FileRun) :
    (processTranscription r).tempDirAfter = false ∧
    ((processTranscription r).tempDirCreated = true ↔
      extract_video_id r.url ≠ none ∧
        (r.method = "Whisper" ∨ r.method = "Both")) ∧
    (processFileTranscription f).progressFileAfter = false := by
  refine ⟨rfl, ?_, by cases hcb : f.cbOk <;> simp [processFileTranscription, hcb]⟩
  have hcreated : (processTranscription r).tempDirCreated = (runBody r).2 := rfl
  rw [hcreated]
  cases hu : extract_video_id r.url with
  | none => rw [runBody_invalid r hu]; simp
  | some u =>
    by_cases hw : r.method = "Whisper" ∨ r.method = "Both"
    · cases hdl : r.dlOk with
      | false => rw [runBody_dl_fail r u hu hw hdl]; simp [hw]
      | true =>
        cases hres : r.wRes.ok with
        | true => rw [runBody_whisper_ok r u hu hw hdl hres]; simp [hw]
        | false => rw [runBody_whisper_fail r u hu hw hdl hres]; simp [hw]
    · by_cases hyt : r.method = "YouTube" ∧ r.yt.success = true
      · rw [runBody_yt_success r u hu hyt.1 hyt.2]; simp [hw]
      · rw [runBody_no_branch r u hu hyt hw]; simp [hw]

/-- C4 counterexample: (i) with yt-dlp reporting 50% then 10% before failing,
the recorded/emitted progress sequence is [0, 15, 3, 100] — not
non-decreasing; (ii) on the failing YouTube-only path the final recorded
progress value is 0, not 100. -/
theorem c4_counterexample :
    ¬ List.Chain' (· ≤ ·) (progressSeq runDlJitter) ∧
      (progressSeq runYtFail).getLast? ≠ some 100 := by
  have hA : progressSeq runDlJitter = [0, 15, 3, 100] := by
    show (registryTrace runDlJitter).filterMap (·.progress) = _
    rw [registryTrace_eq,
      runBody_dl_fail runDlJitter (("abc123").data) (by decide) (Or.inr rfl) rfl]
    dsimp only
    rw [regEvents_append, regEvents_append, List.filterMap_append,
      List.filterMap_append, filterMap_progress_phase1, regEvents_dlSends,
      filterMap_progress_dl_list]
    norm_num [runDlJitter, startOf, regEvents, errorEvent, List.filterMap_cons]
  have hB : progressSeq runYtFail = [0] := by
    show (registryTrace runYtFail).filterMap (·.progress) = _
    rw [registryTrace_eq,
      runBody_yt_failure runYtFail (("abc123").data) (by decide) rfl rfl]
    dsimp only
    rw [filterMap_progress_phase1]
    norm_num [runYtFail]
  refine ⟨?_, ?_⟩
  · rw [hA]
    intro hc
    have h2 := (List.chain'_cons.mp (List.chain'_cons.mp hc).2).1
    norm_num at h2
  · rw [hB]
    simp only [List.getLast?_singleton, ne_eq, Option.some.injEq]
    norm_num

/-- C4 amended: provided the external percent streams are themselves
well-formed — the yt-dlp hook percents non-decreasing within [0, 100] and the
worker's progress percents non-decreasing within [0, 100] — the sequence of
progress values recorded via `update_progress` (equally, passed to the sink)
is monotonically non-decreasing, and whenever the run records a terminal
event the final recorded progress value is exactly 100; the failing
YouTube-only path records no terminal event and ends at 0 (see the
counterexample and C1). -/
theorem c4_amended (r : Run)
    (hh : List.Chain' (· ≤ ·) (r.hooks.map (·.progress)))
    (hhb : ∀ hk ∈ r.hooks, 0 ≤ hk.progress ∧ hk.progress ≤ 100)
    (hwc : List.Chain' (· ≤ ·) (wpcts r.wUpdates))
    (hwb : ∀ p ∈ wpcts r.wUpdates, 0 ≤ p ∧ p ≤ 100) :
    List.Chain' (· ≤ ·) (progressSeq r) ∧
      ((∃ e ∈ registryTrace r, e.complete = true) →
        (progressSeq r).getLast? = some 100) := by
  obtain ⟨hs0, hs30⟩ := startOf_bounds r
  set s := startOf r with hsdef
  have h310 : ((100 : ℚ)) * (3 / 10) = 30 := by norm_num
  have h25 : ((100 : ℚ)) * (2 / 5) = 40 := by norm_num
  have hookChain : List.Chain' (· ≤ ·)
      (r.hooks.map fun hk => s + hk.progress * (3 / 10)) := by
    have h2 : (r.hooks.map fun hk => s + hk.progress * (3 / 10))
        = (r.hooks.map (·.progress)).map fun p => s + p * (3 / 10) := by
      rw [List.map_map]; rfl
    rw [h2]
    exact chain_le_affine _ _ (by norm_num) _ hh
  have hookMem : ∀ x ∈ r.hooks.map fun hk => s + hk.progress * (3 / 10),
      s ≤ x ∧ x ≤ s + 30 := by
    intro x hx
    rcases List.mem_map.mp hx with ⟨hk, hkm, rfl⟩
    obtain ⟨hb0, hb100⟩ := hhb hk hkm
    have hmn : 0 ≤ hk.progress * (3 / 10) := by positivity
    have hmu : hk.progress * (3 / 10) ≤ 100 * (3 / 10) :=
      mul_le_mul_of_nonneg_right hb100 (by norm_num)
    constructor <;> linarith
  have relayChain : List.Chain' (· ≤ ·)
      ((wpcts r.wUpdates).map fun p => s + 30 + p * (2 / 5)) :=
    chain_le_affine (s + 30) (2 / 5) (by norm_num) _ hwc
  have relayMem : ∀ x ∈ (wpcts r.wUpdates).map fun p => s + 30 + p * (2 / 5),
      s + 30 ≤ x ∧ x ≤ 100 := by
    intro x hx
    rcases List.mem_map.mp hx with ⟨p, hpm, rfl⟩
    obtain ⟨hb0, hb100⟩ := hwb p hpm
    have hmn : 0 ≤ p * (2 / 5) := by positivity
    have hmu : p * (2 / 5) ≤ 100 * (2 / 5) :=
      mul_le_mul_of_nonneg_right hb100 (by norm_num)
    constructor <;> linarith
  have hp1 : (if r.method = "YouTube" ∨ r.method = "Both"
      then [(0 : ℚ)] else []) = [] ∨
      (if r.method = "YouTube" ∨ r.method = "Both"
      then [(0 : ℚ)] else []) = [0] := by
    by_cases hc : r.method = "YouTube" ∨ r.method = "Both" <;> simp [hc]
  cases hu : extract_video_id r.url with
  | none =>
    have hseq : progressSeq r = [100] := by
      show (registryTrace r).filterMap (·.progress) = _
      rw [registryTrace_eq, runBody_invalid r hu]
      simp [regEvents, errorEvent]
    exact ⟨by rw [hseq]; simp, fun _ => by rw [hseq]; rfl⟩
  | some u =>
    by_cases hyt : r.method = "YouTube" ∧ r.yt.success = true
    · have hseq : progressSeq r
          = [0] ++ (if r.saveOk then [(100 : ℚ)] else [100, 100]) := by
        show (registryTrace r).filterMap (·.progress) = _
        rw [registryTrace_eq, runBody_yt_success r u hu hyt.1 hyt.2]
        dsimp only
        rw [regEvents_append, List.filterMap_append, filterMap_progress_phase1,
          filterMap_progress_terminalOk r _ rfl, if_pos (Or.inl hyt.1)]
      by_cases hsv : r.saveOk
      · rw [hseq, if_pos hsv]
        exact ⟨by simp, fun _ => rfl⟩
      · rw [hseq, if_neg hsv]
        exact ⟨by simp, fun _ => rfl⟩
    · by_cases hw2 : r.method = "Whisper" ∨ r.method = "Both"
      · cases hdl : r.dlOk with
        | false =>
          have hseq : progressSeq r
              = (if r.method = "YouTube" ∨ r.method = "Both"
                  then [(0 : ℚ)] else [])
                ++ ((r.hooks.map fun hk => s + hk.progress * (3 / 10))
                  ++ [100]) := by
            show (registryTrace r).filterMap (·.progress) = _
            rw [registryTrace_eq, runBody_dl_fail r u hu hw2 hdl]
            dsimp only
            rw [regEvents_append, regEvents_append, List.filterMap_append,
              List.filterMap_append, filterMap_progress_phase1,
              regEvents_dlSends, filterMap_progress_dl_list,
              List.append_assoc]
            simp [regEvents, errorEvent]
          rw [hseq]
          have core := c4_core_dl _ _ s hs0 hs30 hp1 hookChain hookMem
          exact ⟨core.1, fun _ => core.2⟩
        | true =>
          cases hres : r.wRes.ok with
          | true =>
            have hseq : progressSeq r
                = (if r.method = "YouTube" ∨ r.method = "Both"
                    then [(0 : ℚ)] else [])
                  ++ ((r.hooks.map fun hk => s + hk.progress * (3 / 10))
                    ++ ([s + 30, s + 30]
                      ++ (((wpcts r.wUpdates).map fun p => s + 30 + p * (2 / 5))
                        ++ (if r.saveOk then [(100 : ℚ)] else [100, 100])))) := by
              show (registryTrace r).filterMap (·.progress) = _
              rw [registryTrace_eq, runBody_whisper_ok r u hu hw2 hdl hres]
              dsimp only
              rw [regEvents_append, regEvents_append, regEvents_append,
                regEvents_append, List.filterMap_append, List.filterMap_append,
                List.filterMap_append, List.filterMap_append,
                filterMap_progress_phase1, regEvents_dlSends,
                filterMap_progress_dl_list, regEvents_relaySends,
                filterMap_progress_relay, filterMap_progress_terminalOk r _ rfl,
                List.append_assoc, List.append_assoc, List.append_assoc]
              have hpair : (regEvents
                  [⟨dlEvent r.taskId s ⟨100, none, none⟩, true⟩,
                   ⟨startingEvent r.taskId s, true⟩]).filterMap (·.progress)
                  = [s + 30, s + 30] := by
                simp only [regEvents, List.map_cons, List.map_nil,
                  List.filterMap_cons, dlEvent, startingEvent,
                  List.filterMap_nil]
                norm_num
              rw [hpair]
            rw [hseq]
            have hT : (if r.saveOk then [(100 : ℚ)] else [100, 100]) = [100]
                ∨ (if r.saveOk then [(100 : ℚ)] else [100, 100])
                  = [100, 100] := by
              by_cases hsv : r.saveOk <;> simp [hsv]
            have core := c4_core _ _ _ _ s hs0 hs30 hp1 hookChain hookMem
              relayChain relayMem hT
            exact ⟨core.1, fun _ => core.2⟩
          | false =>
            have hseq : progressSeq r
                = (if r.method = "YouTube" ∨ r.method = "Both"
                    then [(0 : ℚ)] else [])
                  ++ ((r.hooks.map fun hk => s + hk.progress * (3 / 10))
                    ++ ([s + 30, s + 30]
                      ++ (((wpcts r.wUpdates).map fun p => s + 30 + p * (2 / 5))
                        ++ [100]))) := by
              show (registryTrace r).filterMap (·.progress) = _
              rw [registryTrace_eq, runBody_whisper_fail r u hu hw2 hdl hres]
              dsimp only
              rw [regEvents_append, regEvents_append, regEvents_append,
                regEvents_append, List.filterMap_append, List.filterMap_append,
                List.filterMap_append, List.filterMap_append,
                filterMap_progress_phase1, regEvents_dlSends,
                filterMap_progress_dl_list, regEvents_relaySends,
                filterMap_progress_relay, List.append_assoc, List.append_assoc,
                List.append_assoc]
              have hpair : (regEvents
                  [⟨dlEvent r.taskId s ⟨100, none, none⟩, true⟩,
                   ⟨startingEvent r.taskId s, true⟩]).filterMap (·.progress)
                  = [s + 30, s + 30] := by
                simp only [regEvents, List.map_cons, List.map_nil,
                  List.filterMap_cons, dlEvent, startingEvent,
                  List.filterMap_nil]
                norm_num
              rw [hpair]
              simp [regEvents, errorEvent]
            rw [hseq]
            have core := c4_core _ _ _ _ s hs0 hs30 hp1 hookChain hookMem
              relayChain relayMem (Or.inl rfl)
            exact ⟨core.1, fun _ => core.2⟩
      · have hb := runBody_no_branch r u hu hyt hw2
        have hseq : progressSeq r
            = if r.method = "YouTube" ∨ r.method = "Both"
              then [(0 : ℚ)] else [] := by
          show (registryTrace r).filterMap (·.progress) = _
          rw [registryTrace_eq, hb]
          dsimp only
          rw [filterMap_progress_phase1]
        constructor
        · rw [hseq]
          rcases hp1 with hp | hp <;> rw [hp] <;> simp
        · rintro ⟨e, he, hc⟩
          rw [registryTrace_eq, hb] at he
          have h0 := List.countP_eq_zero.mp (countP_complete_phase1 r) e he
          simp [hc] at h0

/-- Witness for C4 amended at a concrete run (successful YouTube-only task):
the recorded progress sequence is non-decreasing. -/
theorem c4_amended_witness : List.Chain' (· ≤ ·) (progressSeq runYtOk) :=
  (c4_amended runYtOk (by simp [runYtOk]) (by simp [runYtOk])
    (by simp [runYtOk, wpcts]) (by simp [runYtOk, wpcts])).1

/-- C6 counterexample: the id `"youtu.be/x"` is non-empty and contains none
of `&`, `?`, `#`, newline, yet on the shorts shape the first pattern matches
inside the id and `extract_video_id` returns `"x"`, not the id — so not all
four shapes yield the embedded id. -/
theorem c6_counterexample :
    extract_video_id (("https://www.youtube.com/shorts/").data ++ ("youtu.be/x").data)
      = some (("x").data) ∧
    ("youtu.be/x").data ≠ [] ∧
    (∀ c ∈ ("youtu.be/x").data, stopChar c = false) ∧
    some (("youtu.be/x").data) ≠ some (("x").data) :=
  ⟨by decide, by decide, by decide, by decide⟩

/-- C6 amended: for every non-empty id `v` containing none of `&`, `?`, `#`,
newline, `extract_video_id` returns `some v` on the watch, youtu.be and embed
shapes unconditionally, and on the shorts shape provided the first pattern
finds no match inside `v` itself (e.g. `v` contains no occurrence of
`youtube.com/watch?v=`, `youtu.be/` or `youtube.com/embed/` followed by more
id characters); in particular all four shapes agree for ordinary ids and
`extract_video_id("https://youtu.be/abc123") = some "abc123"` (see the
witness). -/
theorem c6_extract_id (v : List Char) (hne : v ≠ [])
    (hv : ∀ c ∈ v, stopChar c = false) :
    extract_video_id (("https://www.youtube.com/watch?v=").data ++ v) = some v ∧
    extract_video_id (("https://youtu.be/").data ++ v) = some v ∧
    extract_video_id (("https://www.youtube.com/embed/").data ++ v) = some v ∧
    (reSearch pat1 v = none →
      extract_video_id (("https://www.youtube.com/shorts/").data ++ v) = some v) := by
  have hwatch : reSearch pat1 (("https://www.youtube.com/watch?v=").data ++ v)
      = some v := by
    rw [show ("https://www.youtube.com/watch?v=").data
        = ("https://www.").data ++ ("youtube.com/watch?v=").data by decide,
      List.append_assoc,
      reSearch_append_skip pat1 (("https://www.").data) (by decide)]
    refine reSearch_of_tryAlts_some _ _ _ (by simp) ?_
    simp only [pat1, tryAlts_cons, tryAlt_self (("youtube.com/watch?v=").data) v hne hv,
      orElse_some_eval]
  have hbe : reSearch pat1 (("https://youtu.be/").data ++ v) = some v := by
    rw [show ("https://youtu.be/").data
        = ("https://").data ++ ("youtu.be/").data by decide,
      List.append_assoc,
      reSearch_append_skip pat1 (("https://").data) (by decide)]
    refine reSearch_of_tryAlts_some _ _ _ (by simp) ?_
    have t1 : tryAlt (("youtube.com/watch?v=").data) ((("youtu.be/").data) ++ v)
        = none :=
      tryAlt_of_not_prefix _ _ (mismatchWithin_isPrefixOf _ _ (by decide) v)
    simp only [pat1, tryAlts_cons, t1, tryAlt_self (("youtu.be/").data) v hne hv,
      orElse_none_eval, orElse_some_eval]
  have hembed : reSearch pat1 (("https://www.youtube.com/embed/").data ++ v)
      = some v := by
    rw [show ("https://www.youtube.com/embed/").data
        = ("https://www.").data ++ ("youtube.com/embed/").data by decide,
      List.append_assoc,
      reSearch_append_skip pat1 (("https://www.").data) (by decide)]
    refine reSearch_of_tryAlts_some _ _ _ (by simp) ?_
    have t1 : tryAlt (("youtube.com/watch?v=").data) ((("youtube.com/embed/").data) ++ v)
        = none :=
      tryAlt_of_not_prefix _ _ (mismatchWithin_isPrefixOf _ _ (by decide) v)
    have t2 : tryAlt (("youtu.be/").data) ((("youtube.com/embed/").data) ++ v)
        = none :=
      tryAlt_of_not_prefix _ _ (mismatchWithin_isPrefixOf _ _ (by decide) v)
    simp only [pat1, tryAlts_cons, t1, t2,
      tryAlt_self (("youtube.com/embed/").data) v hne hv,
      orElse_none_eval, orElse_some_eval]
  refine ⟨?_, ?_, ?_, ?_⟩
  · simp only [extract_video_id, hwatch, orElse_some_eval]
  · simp only [extract_video_id, hbe, orElse_some_eval]
  · simp only [extract_video_id, hembed, orElse_some_eval]
  · intro hnone
    have h1 : reSearch pat1 (("https://www.youtube.com/shorts/").data ++ v) = none := by
      rw [reSearch_append_skip pat1 (("https://www.youtube.com/shorts/").data) (by decide)]
      exact hnone
    have h2 : reSearch pat2 (("https://www.youtube.com/shorts/").data ++ v) = some v := by
      rw [show ("https://www.youtube.com/shorts/").data
          = ("https://www.").data ++ ("youtube.com/shorts/").data by decide,
        List.append_assoc,
        reSearch_append_skip pat2 (("https://www.").data) (by decide)]
      refine reSearch_of_tryAlts_some _ _ _ (by simp) ?_
      simp only [pat2, tryAlts_cons, tryAlt_self (("youtube.com/shorts/").data) v hne hv,
        orElse_some_eval]
    simp only [extract_video_id, h1, h2, orElse_none_eval]

/-- Witness for C6 amended at the spec's own scenario id `abc123`: the
youtu.be shape and the shorts shape both yield `"abc123"`. -/
theorem c6_extract_id_witness :
    extract_video_id (("https://youtu.be/abc123").data) = some (("abc123").data) ∧
    extract_video_id (("https://www.youtube.com/shorts/abc123").data)
      = some (("abc123").data) := by
  have h := c6_extract_id (("abc123").data) (by decide) (by decide)
  refine ⟨?_, ?_⟩
  · rw [show ("https://youtu.be/abc123").data
        = ("https://youtu.be/").data ++ ("abc123").data by decide]
    exact h.2.1
  · rw [show ("https://www.youtube.com/shorts/abc123").data
        = ("https://www.youtube.com/shorts/").data ++ ("abc123").data by decide]
    exact h.2.2.2 (by decide)

/-- C3 counterexample: with a sink that always raises, the delivery primitive
used for every event — terminal ones included — makes exactly 3 attempts,
never the claimed 5. -/
theorem c3_counterexample :
    (sendRetry fun _ => false).1 = 3 ∧ ¬(sendRetry fun _ => false).1 = 5 := by
  constructor <;> decide

/-- C3 amended: the delivery loop of `_send_progress` attempts the sink call
up to 3 times for every event (there is no separate terminal-event limit of
5), sleeping 1 second then 2 seconds between consecutive attempts (delay
doubling, i.e. the i-th sleep is 2^i seconds); it succeeds iff some of the
first 3 attempts succeeds, makes all 3 attempts before giving up silently,
and the dict recorded in the registry is independent of the delivery
outcome. -/
theorem c3_amended (sinkOk : Nat → Bool) (e : Event) :
    attemptCount sinkOk ≤ 3 ∧
    (sendRetry sinkOk).2.1 = (List.range (attemptCount sinkOk - 1)).map (fun i => 2 ^ i) ∧
    ((sendRetry sinkOk).2.2 = true ↔ ∃ i, i < 3 ∧ sinkOk i = true) ∧
    ((sendRetry sinkOk).2.2 = false → attemptCount sinkOk = 3) ∧
    (∀ sinkOk2 : Nat → Bool, sendProgressStored e sinkOk = sendProgressStored e sinkOk2) := by
  cases h0 : sinkOk 0 with
  | true =>
    refine ⟨?_, ?_, ?_, ?_, fun _ => rfl⟩
    · simp [attemptCount, sendRetry, sendAttemptLoop, h0]
    · simp [attemptCount, sendRetry, sendAttemptLoop, h0]
    · exact iff_of_true (by simp [sendRetry, sendAttemptLoop, h0]) ⟨0, by omega, h0⟩
    · simp [sendRetry, sendAttemptLoop, h0]
  | false =>
    cases h1 : sinkOk 1 with
    | true =>
      refine ⟨?_, ?_, ?_, ?_, fun _ => rfl⟩
      · simp [attemptCount, sendRetry, sendAttemptLoop, h0, h1]
      · simp [attemptCount, sendRetry, sendAttemptLoop, h0, h1, List.range_succ]
      · exact iff_of_true (by simp [sendRetry, sendAttemptLoop, h0, h1]) ⟨1, by omega, h1⟩
      · simp [sendRetry, sendAttemptLoop, h0, h1]
    | false =>
      cases h2 : sinkOk 2 with
      | true =>
        refine ⟨?_, ?_, ?_, ?_, fun _ => rfl⟩
        · simp [attemptCount, sendRetry, sendAttemptLoop, h0, h1, h2]
        · simp [attemptCount, sendRetry, sendAttemptLoop, h0, h1, h2, List.range_succ]
        · exact iff_of_true (by simp [sendRetry, sendAttemptLoop, h0, h1, h2])
            ⟨2, by omega, h2⟩
        · simp [sendRetry, sendAttemptLoop, h0, h1, h2]
      | false =>
        refine ⟨?_, ?_, ?_, ?_, fun _ => rfl⟩
        · simp [attemptCount, sendRetry, sendAttemptLoop, h0, h1, h2]
        · simp [attemptCount, sendRetry, sendAttemptLoop, h0, h1, h2, List.range_succ]
        · refine iff_of_false (by simp [sendRetry, sendAttemptLoop, h0, h1, h2]) ?_
          rintro ⟨i, hi, hok⟩
          interval_cases i <;> simp_all
        · intro _; simp [attemptCount, sendRetry, sendAttemptLoop, h0, h1, h2]

/-- Witness for C3 amended at a concrete oracle (success on the second
attempt): at most 3 calls, one 1-second sleep, delivery succeeded. -/
theorem c3_amended_witness :
    attemptCount (fun i => decide (i = 1)) ≤ 3 ∧
    (sendRetry (fun i => decide (i = 1))).2.1
      = (List.range (attemptCount (fun i => decide (i = 1)) - 1)).map (fun i => 2 ^ i) ∧
    ((sendRetry (fun i => decide (i = 1))).2.2 = true
      ↔ ∃ i, i < 3 ∧ decide (i = 1) = true) ∧
    ((sendRetry (fun i => decide (i = 1))).2.2 = false
      → attemptCount (fun i => decide (i = 1)) = 3) ∧
    (∀ sinkOk2 : Nat → Bool,
      sendProgressStored (fetchEvent "t") (fun i => decide (i = 1))
        = sendProgressStored (fetchEvent "t") sinkOk2) :=
  c3_amended (fun i => decide (i = 1)) (fetchEvent "t")

/-- C8 counterexample: a result file that exists but is empty passes the
post-write verification — `save_transcription_result` reports success on a
zero-byte file, so the claimed non-emptiness check is absent. -/
theorem c8_counterexample :
    save_transcription_result ⟨true, 0⟩ = .ok () ∧
      (⟨true, 0⟩ : SaveFs).sizeAfterWrite = 0 := by
  constructor <;> rfl

/-- C8 amended: the post-write verification checks existence only: the save
succeeds iff the file exists afterwards (its size is logged, never checked),
and when the file is missing the error propagates to the caller. -/
theorem c8_amended (fs : SaveFs) :
    (save_transcription_result fs = .ok () ↔ fs.existsAfterWrite = true) ∧
    (fs.existsAfterWrite = false →
      save_transcription_result fs = .error "result file was not created") := by
  cases h : fs.existsAfterWrite <;> simp [save_transcription_result, h]

/-- Witness for C8 amended at a concrete input: a missing file makes the save
raise to its caller. -/
theorem c8_amended_witness :
    save_transcription_result ⟨false, 5⟩ = .error "result file was not created" :=
  (c8_amended ⟨false, 5⟩).2 rfl

/-- C7: `download_audio` leaves, on success, the destination file existing
with non-zero size; on any failure it removes the destination file and every
`*.mp3` and `*.webm` glob match in the destination directory and raises an
error whose message starts with a descriptive prefix. -/
theorem c7_download_cleanup (outName : String) (e : DlFsRun) :
    (∀ d, download_audio outName e = .ok d →
      ∃ n, lookupSize d outName = some n ∧ n ≠ 0) ∧
    (∀ msg d, download_audio outName e = .error (msg, d) →
      lookupSize d outName = none ∧
      (∀ f ∈ d, globMatch ".mp3" f.1 = false ∧ globMatch ".webm" f.1 = false) ∧
      ∃ rest, msg = "Failed to download audio: " ++ rest) := by
  constructor
  · intro d hd
    unfold download_audio at hd
    split at hd
    · cases hd
    · split at hd
      · cases hd
      · split at hd
        · cases hd
        · split at hd
          · cases hd
          · split at hd
            · cases hd
            · rename_i hnone hzero
              cases hd
              cases hn : lookupSize d outName with
              | none => rw [hn] at hnone; simp at hnone
              | some n =>
                refine ⟨n, rfl, ?_⟩
                intro h0
                rw [h0] at hn
                exact hzero hn
  · intro msg d hd
    unfold download_audio at hd
    have herr : ∀ (X : Dir) (m : String),
        msg = m → d = cleanupPartial X outName →
        (∃ r, m = "Failed to download audio: " ++ r) →
        lookupSize d outName = none ∧
          (∀ f ∈ d, globMatch ".mp3" f.1 = false ∧ globMatch ".webm" f.1 = false) ∧
          ∃ rest, msg = "Failed to download audio: " ++ rest := by
      rintro X m rfl rfl hr
      exact ⟨(cleanupPartial_spec X outName).1, (cleanupPartial_spec X outName).2, hr⟩
    split at hd
    · cases hd
      exact herr _ _ rfl rfl ⟨_, rfl⟩
    · split at hd
      · cases hd
        exact herr _ _ rfl rfl ⟨_, rfl⟩
      · split at hd
        · cases hd
          exact herr _ _ rfl rfl ⟨_, rfl⟩
        · split at hd
          · cases hd
            exact herr _ _ rfl rfl ⟨_, rfl⟩
          · split at hd
            · cases hd
              exact herr _ _ rfl rfl ⟨_, rfl⟩
            · cases hd

/-- Witness for C7 at concrete inputs: a successful run leaves `audio.mp3`
with 5 bytes; a failing run (yt-dlp raising) leaves a directory with no
`audio.mp3` and no `*.mp3`/`*.webm` files. -/
theorem c7_download_cleanup_witness :
    (∃ n, lookupSize [("audio.mp3", 5)] "audio.mp3" = some n ∧ n ≠ 0) ∧
    (lookupSize (cleanupPartial [("vid.webm", 7), ("notes.txt", 3)] "audio.mp3")
        "audio.mp3" = none ∧
      (∀ f ∈ cleanupPartial [("vid.webm", 7), ("notes.txt", 3)] "audio.mp3",
        globMatch ".mp3" f.1 = false ∧ globMatch ".webm" f.1 = false) ∧
      ∃ rest, "Failed to download audio: Failed to download video: boom"
        = "Failed to download audio: " ++ rest) :=
  ⟨(c7_download_cleanup "audio.mp3" ⟨false, "", true, "vid", [("vid.mp3", 5)]⟩).1
      [("audio.mp3", 5)] (by rfl),
    (c7_download_cleanup "audio.mp3"
        ⟨true, "boom", true, "vid", [("vid.webm", 7), ("notes.txt", 3)]⟩).2
      "Failed to download audio: Failed to download video: boom"
      (cleanupPartial [("vid.webm", 7), ("notes.txt", 3)] "audio.mp3") (by rfl)⟩

end WebCli
